import Mathlib

/-!
Shallow embedding of the claude-code-rate-limit-monitor core
(src/usage_calculator.py, src/config.py, src/notifier.py, src/tray_app.py,
src/file_watcher.py) and verification of its specification claims.

Timestamps are modelled as integer seconds (parsed ISO-8601 instants compare
exactly as their underlying instants do). Percentages and thresholds are
modelled as rationals. Notification times are modelled as integer minutes.
-/

namespace Monitor

/-! ## Data model: parsed usage records (usage_calculator.py) -/

/-- The `message.usage` object of one JSONL record; the four token
sub-counters, each defaulting to 0 when absent (`usage.get(..., 0)`). -/
structure Usage where
  input_tokens : Nat
  output_tokens : Nat
  cache_creation_input_tokens : Nat
  cache_read_input_tokens : Nat
deriving DecidableEq, Repr

/-- `input_tokens + output_tokens + cache_creation + cache_read`
(usage_calculator.py lines 166-171). -/
def Usage.total (u : Usage) : Nat :=
  u.input_tokens + u.output_tokens + u.cache_creation_input_tokens +
    u.cache_read_input_tokens

/-- Outcome of extracting and parsing the `timestamp` field of a record:
absent (`entry.get('timestamp')` falsy), present but rejected by
`datetime.fromisoformat` (`ValueError`), or parsed to an instant. -/
inductive TimestampField where
  | missing
  | unparsable
  | parsed (t : Int)
deriving DecidableEq, Repr

/-- One (stripped) line of a JSONL fragment, after structural decoding:
blank, rejected by `json.loads` (`JSONDecodeError`), or a decoded entry
carrying an optional `message.usage` object (`none` covers both a missing
and an empty/falsy usage dict) and a timestamp field. -/
inductive LineParse where
  | blank
  | badJson
  | entry (usage : Option Usage) (timestamp : TimestampField)
deriving DecidableEq, Repr

/-- `if oldest is None or t < oldest: oldest = t` — the oldest-time update
used in both `_parse_jsonl_file` (lines 173-175) and `calculate`
(lines 92-94). -/
def mergeOldest (o : Option Int) (t : Int) : Option Int :=
  match o with
  | none => some t
  | some x => if t < x then some t else some x

/-- The body of the per-line loop of `_parse_jsonl_file`
(usage_calculator.py lines 130-175): skip blank lines, undecodable lines,
entries without usage, entries with a missing or unparsable timestamp;
for the rest add the token total and track the oldest in-window timestamp
when `msg_time >= window_start`. The accumulator is
`(total_tokens, oldest_time)`. -/
def parseLine (windowStart : Int) (acc : Nat × Option Int) (l : LineParse) :
    Nat × Option Int :=
  match l with
  | .blank => acc
  | .badJson => acc
  | .entry usage ts =>
    match usage with
    | none => acc
    | some u =>
      match ts with
      | .missing => acc
      | .unparsable => acc
      | .parsed t =>
        if windowStart ≤ t then (acc.1 + u.total, mergeOldest acc.2 t)
        else acc

/-- `_parse_jsonl_file` (usage_calculator.py lines 123-176): fold the
per-line loop over the fragment's lines starting from `(0, None)`. -/
def parseJsonlFile (lines : List LineParse) (windowStart : Int) :
    Nat × Option Int :=
  lines.foldl (parseLine windowStart) (0, none)

/-! ## Aggregation pass (`UsageCalculator.calculate`) -/

/-- One discovered `.jsonl` fragment: either its parsed lines, or a fragment
whose open/read raises (the `except` of usage_calculator.py lines 94-96). -/
inductive FileRead where
  | readable (lines : List LineParse)
  | unreadable
deriving Repr

/-- The per-fragment body of the scan loop in `calculate`
(usage_calculator.py lines 88-96): an unreadable fragment is skipped
(`continue`); otherwise its token count is added and its oldest message
time merged into the running minimum. -/
def fileStep (windowStart : Int) (acc : Nat × Option Int) (f : FileRead) :
    Nat × Option Int :=
  match f with
  | .unreadable => acc
  | .readable lines =>
    let r := parseJsonlFile lines windowStart
    (acc.1 + r.1,
     match r.2 with
     | none => acc.2
     | some t => mergeOldest acc.2 t)

/-- The scan over all discovered fragments (usage_calculator.py
lines 88-96). -/
def scanFiles (windowStart : Int) (files : List FileRead) : Nat × Option Int :=
  files.foldl (fileStep windowStart) (0, none)

/-- `percentage = (total_tokens / token_limit * 100) if token_limit > 0
else 0` (usage_calculator.py line 108). -/
def computePercentage (total_tokens token_limit : Nat) : ℚ :=
  if token_limit > 0 then (total_tokens : ℚ) / (token_limit : ℚ) * 100 else 0

/-- The `UsageStats` dataclass (usage_calculator.py lines 17-27) with the
Python field defaults; `window_start`/`window_end` and the optional times
are `none` by default. -/
structure UsageStats where
  total_tokens : Nat := 0
  token_limit : Nat := 0
  percentage : ℚ := 0
  window_start : Option Int := none
  window_end : Option Int := none
  remaining_tokens : Int := 0
  remaining_time : Option Int := none
  oldest_message_time : Option Int := none
deriving Repr

/-- `UsageCalculator.calculate` (usage_calculator.py lines 70-121).
`window_hours` and `token_limit` stand for `self.config.window_hours` and
`self.config.token_limit`; `claude_dir_exists` for `claude_dir.exists()`;
`files` for the fragments found by `rglob("*.jsonl")`; `now` for
`datetime.now(timezone.utc)` in seconds. -/
def calculate (window_hours : Nat) (token_limit : Nat)
    (claude_dir_exists : Bool) (files : List FileRead) (now : Int) :
    UsageStats :=
  let window_start : Int := now - (window_hours : Int) * 3600
  if !claude_dir_exists then
    { token_limit := token_limit }
  else
    let scan := scanFiles window_start files
    let total_tokens := scan.1
    let oldest_message_time := scan.2
    let remaining_time : Option Int :=
      match oldest_message_time with
      | none => none
      | some o =>
        let reset_time := o + (window_hours : Int) * 3600
        let rt := reset_time - now
        some (if rt < 0 then 0 else rt)
    let percentage := computePercentage total_tokens token_limit
    { total_tokens := total_tokens
      token_limit := token_limit
      percentage := min percentage 100
      window_start := some window_start
      window_end := some now
      remaining_tokens := max 0 ((token_limit : Int) - (total_tokens : Int))
      remaining_time := remaining_time
      oldest_message_time := oldest_message_time }

/-! ## Spec-side characterization of window membership (for claim C1).
These definitions follow the specification's words ("a record is in-window
iff `record.timestamp >= start`"), to be compared with the source-derived
`parseJsonlFile`. -/

/-- A line that the record parser accepts: decoded entry with a usage
object and a parsed timestamp. Yields `(token count, timestamp)`. -/
def validRecord : LineParse → Option (Nat × Int)
  | .entry (some u) (.parsed t) => some (u.total, t)
  | _ => none

/-- Spec-side: the in-window records of a fragment, i.e. the valid records
whose timestamp is `>= window start`. -/
def includedRecords (windowStart : Int) (lines : List LineParse) :
    List (Nat × Int) :=
  (lines.filterMap validRecord).filter (fun r => windowStart ≤ r.2)

lemma mergeOldest_some (x t : Int) : mergeOldest (some x) t = some (min x t) := by
  simp only [mergeOldest]
  rcases lt_trichotomy t x with h | h | h
  · rw [if_pos h, min_eq_right h.le]
  · subst h; simp
  · rw [if_neg (not_lt.mpr h.le), min_eq_left h.le]

lemma foldl_mergeOldest_some (ts : List Int) :
    ∀ x : Int, ts.foldl mergeOldest (some x) = some (ts.foldl min x) := by
  induction ts with
  | nil => intro x; rfl
  | cons t ts ih =>
    intro x
    simp only [List.foldl_cons, mergeOldest_some]
    exact ih (min x t)

lemma foldl_mergeOldest_none (ts : List Int) :
    ts.foldl mergeOldest none = ts.min? := by
  cases ts with
  | nil => rfl
  | cons t ts =>
    simp only [List.foldl_cons, mergeOldest, List.min?]
    exact foldl_mergeOldest_some ts t

/-- The per-line loop of `_parse_jsonl_file`, run from an arbitrary
accumulator, adds exactly the token counts of the in-window valid records
and merges exactly their timestamps into the running minimum. -/
lemma parse_loop (ws : Int) (lines : List LineParse) :
    ∀ (a : Nat) (o : Option Int),
      lines.foldl (parseLine ws) (a, o) =
        (a + ((includedRecords ws lines).map Prod.fst).sum,
         (includedRecords ws lines).foldl (fun o r => mergeOldest o r.2) o) := by
  induction lines with
  | nil => intro a o; simp [includedRecords]
  | cons l rest ih =>
    intro a o
    cases l with
    | blank =>
      simpa [includedRecords, parseLine, validRecord] using ih a o
    | badJson =>
      simpa [includedRecords, parseLine, validRecord] using ih a o
    | entry usage ts =>
      cases usage with
      | none =>
        simpa [includedRecords, parseLine, validRecord] using ih a o
      | some u =>
        cases ts with
        | missing =>
          simpa [includedRecords, parseLine, validRecord] using ih a o
        | unparsable =>
          simpa [includedRecords, parseLine, validRecord] using ih a o
        | parsed t =>
          by_cases hin : ws ≤ t
          · have : includedRecords ws (.entry (some u) (.parsed t) :: rest) =
                (u.total, t) :: includedRecords ws rest := by
              simp [includedRecords, validRecord, hin]
            rw [this]
            simp only [List.foldl_cons, parseLine, if_pos hin]
            rw [ih (a + u.total) (mergeOldest o t)]
            simp only [List.map_cons, List.sum_cons, List.foldl_cons]
            rw [Nat.add_assoc]
          · have : includedRecords ws (.entry (some u) (.parsed t) :: rest) =
                includedRecords ws rest := by
              simp [includedRecords, validRecord, hin]
            rw [List.foldl_cons]
            simp only [parseLine, if_neg hin]
            rw [ih a o, this]

/-- C1. During an aggregation pass at time `now` with window `h` hours
(window start `now - h·3600`), `_parse_jsonl_file` counts exactly the
records with timestamp `>= window start` into the token total, and the
oldest message time is the minimum of exactly those records' timestamps;
in particular a record timestamped exactly at the window start is
included, and any strictly earlier record is excluded. -/
theorem C1_window_membership (lines : List LineParse) (now : Int) (h : Nat) :
    (parseJsonlFile lines (now - (h : Int) * 3600)).1 =
      ((includedRecords (now - (h : Int) * 3600) lines).map Prod.fst).sum
    ∧ (parseJsonlFile lines (now - (h : Int) * 3600)).2 =
      ((includedRecords (now - (h : Int) * 3600) lines).map Prod.snd).min?
    ∧ (∀ u : Usage, ∀ rest : List LineParse,
        (parseJsonlFile
          (.entry (some u) (.parsed (now - (h : Int) * 3600)) :: rest)
          (now - (h : Int) * 3600)).1 =
        u.total + (parseJsonlFile rest (now - (h : Int) * 3600)).1)
    ∧ (∀ u : Usage, ∀ t : Int, t < now - (h : Int) * 3600 →
        parseJsonlFile [.entry (some u) (.parsed t)]
          (now - (h : Int) * 3600) = (0, none)) := by
  set ws := now - (h : Int) * 3600 with hws
  have main := parse_loop ws lines 0 none
  refine ⟨?_, ?_, ?_, ?_⟩
  · rw [parseJsonlFile, main]; simp
  · rw [parseJsonlFile, main]
    simp only
    rw [← List.foldl_map (f := Prod.snd) (g := mergeOldest)]
    exact foldl_mergeOldest_none _
  · intro u rest
    have h1 := parse_loop ws (.entry (some u) (.parsed ws) :: rest) 0 none
    have h2 := parse_loop ws rest 0 none
    rw [parseJsonlFile, h1, parseJsonlFile, h2]
    have : includedRecords ws (.entry (some u) (.parsed ws) :: rest) =
        (u.total, ws) :: includedRecords ws rest := by
      simp [includedRecords, validRecord]
    rw [this]; simp
  · intro u t ht
    rw [parseJsonlFile]
    simp [parseLine, not_le.mpr ht]

/-- C1 witness: with `now = 0` and a 1-hour window, a 100-token record
timestamped one second before the window start is excluded. -/
theorem C1_window_membership_witness :
    parseJsonlFile [LineParse.entry (some ⟨100, 0, 0, 0⟩)
        (TimestampField.parsed (-3601))] ((0 : Int) - ((1 : Nat) : Int) * 3600)
      = (0, none) :=
  (C1_window_membership
      [LineParse.entry (some ⟨100, 0, 0, 0⟩) (TimestampField.parsed (-3601))]
      0 1).2.2.2 ⟨100, 0, 0, 0⟩ (-3601) (by decide)

/-! ## Configuration (config.py) -/

/-- The `PLANS` table (config.py lines 12-25), plan name to token limit. -/
def PLANS : List (String × Nat) :=
  [("Pro", 8744628), ("Max 5x", 100000000), ("Max 20x", 400000000)]

/-- The `Config` dataclass (config.py lines 28-55) with its defaults. -/
structure Config where
  plan : String := "Max 5x"
  window_hours : Nat := 5
  warning_threshold : ℚ := 90
  refresh_interval : Nat := 30
  notification_cooldown : Nat := 15
deriving Repr

/-- `Config.token_limit` (config.py lines 37-40):
`PLANS.get(self.plan, PLANS["Pro"])["token_limit"]`; the fallback value
8744628 is `PLANS["Pro"]["token_limit"]`. -/
def Config.token_limit (c : Config) : Nat :=
  match PLANS.find? (fun kv => kv.1 == c.plan) with
  | some kv => kv.2
  | none => 8744628

lemma token_limit_cases (c : Config) :
    c.token_limit = 8744628 ∨ c.token_limit = 100000000 ∨
      c.token_limit = 400000000 := by
  rw [Config.token_limit]
  rcases hf : PLANS.find? (fun kv => kv.1 == c.plan) with _ | kv
  · rw [hf]; left; rfl
  · rw [hf]
    have hmem := List.mem_of_find?_eq_some hf
    simp only [PLANS, List.mem_cons, List.not_mem_nil, or_false] at hmem
    rcases hmem with h | h | h <;> simp [h]

lemma token_limit_pos (c : Config) : 0 < c.token_limit := by
  rcases token_limit_cases c with h | h | h <;> simp [h]

/-- C10. `Config.token_limit` is strictly positive for every config: it
equals the configured plan's limit for the three known plans
(Pro: 8,744,628; Max 5x: 100,000,000; Max 20x: 400,000,000) and falls back
to the Pro limit for any other plan string; consequently the percentage
derivation always takes its `token_limit > 0` branch. -/
theorem C10_token_limit_positive :
    (∀ c : Config, 0 < c.token_limit)
    ∧ (∀ c : Config, c.plan = "Pro" → c.token_limit = 8744628)
    ∧ (∀ c : Config, c.plan = "Max 5x" → c.token_limit = 100000000)
    ∧ (∀ c : Config, c.plan = "Max 20x" → c.token_limit = 400000000)
    ∧ (∀ c : Config, c.plan ∉ (["Pro", "Max 5x", "Max 20x"] : List String) →
        c.token_limit = 8744628)
    ∧ (∀ (c : Config) (total : Nat),
        computePercentage total c.token_limit =
          (total : ℚ) / (c.token_limit : ℚ) * 100) := by
  refine ⟨token_limit_pos, ?_, ?_, ?_, ?_, ?_⟩
  · intro c h
    simp only [Config.token_limit, h]
    rfl
  · intro c h
    simp only [Config.token_limit, h]
    rfl
  · intro c h
    simp only [Config.token_limit, h]
    rfl
  · intro c h
    simp only [List.mem_cons, List.not_mem_nil, or_false, not_or] at h
    obtain ⟨h1, h2, h3⟩ := h
    have hf : PLANS.find? (fun kv => kv.1 == c.plan) = none := by
      rw [List.find?_eq_none]
      intro kv hkv
      simp only [PLANS, List.mem_cons, List.not_mem_nil, or_false] at hkv
      rcases hkv with h | h | h <;> subst h <;>
        simp only [beq_iff_eq] <;> intro he <;> exact absurd he.symm (by assumption)
    rw [Config.token_limit, hf]
  · intro c total
    rw [computePercentage, if_pos (token_limit_pos c)]

/-- C10 witness: a config on the Pro plan has `token_limit = 8,744,628`. -/
theorem C10_token_limit_positive_witness :
    Config.token_limit { plan := "Pro" } = 8744628 :=
  C10_token_limit_positive.2.1 { plan := "Pro" } rfl

/-- C4. Every snapshot returned by `calculate` has
`percentage = min(100, total_tokens / token_limit * 100)` when
`token_limit > 0` and `percentage = 0` when `token_limit = 0`; in
particular `total_tokens = 2,000,000` with `token_limit = 1,000,000`
yields `percentage = 100`, not 200. -/
theorem C4_percentage_clamp :
    (∀ (h limit : Nat) (dir : Bool) (files : List FileRead) (now : Int),
      0 < limit →
        (calculate h limit dir files now).percentage =
          min 100
            (((calculate h limit dir files now).total_tokens : ℚ) /
              (limit : ℚ) * 100))
    ∧ (∀ (h : Nat) (dir : Bool) (files : List FileRead) (now : Int),
        (calculate h 0 dir files now).percentage = 0)
    ∧ (calculate 5 1000000 true
        [FileRead.readable
          [LineParse.entry (some ⟨2000000, 0, 0, 0⟩)
            (TimestampField.parsed 0)]] 0).percentage = 100 := by
  refine ⟨?_, ?_, ?_⟩
  · intro h limit dir files now hpos
    cases dir with
    | false => simp [calculate]
    | true =>
      simp only [calculate, Bool.not_true, Bool.false_eq_true, if_false]
      rw [computePercentage, if_pos hpos, min_comm]
  · intro h dir files now
    cases dir with
    | false => simp [calculate]
    | true =>
      simp only [calculate, Bool.not_true, Bool.false_eq_true, if_false]
      rw [computePercentage]
      simp
  · norm_num [calculate, scanFiles, fileStep, parseJsonlFile, parseLine,
      computePercentage, mergeOldest, min_def, Usage.total]

/-- C4 witness: with a positive limit and no fragments the clamped
percentage formula holds concretely. -/
theorem C4_percentage_clamp_witness :
    (calculate 5 1000000 true [] 0).percentage =
      min 100
        (((calculate 5 1000000 true [] 0).total_tokens : ℚ) /
          ((1000000 : Nat) : ℚ) * 100) :=
  C4_percentage_clamp.1 5 1000000 true [] 0 (by decide)

/-- C5. Every snapshot returned by `calculate` satisfies
`0 <= percentage <= 100`, for all log contents — in particular also when
`total_tokens` exceeds `token_limit`. -/
theorem C5_percentage_bounds
    (h limit : Nat) (dir : Bool) (files : List FileRead) (now : Int) :
    0 ≤ (calculate h limit dir files now).percentage
    ∧ (calculate h limit dir files now).percentage ≤ 100 := by
  cases dir with
  | false => simp [calculate]
  | true =>
    simp only [calculate, Bool.not_true, Bool.false_eq_true, if_false]
    refine ⟨le_min ?_ (by norm_num), min_le_right _ _⟩
    rw [computePercentage]
    split
    · positivity
    · exact le_refl 0

/-- C7. When the configured log root does not exist, `calculate` returns —
raising nothing — a snapshot with `total_tokens = 0`, `percentage = 0`,
no oldest message time, no remaining time, and `token_limit` taken from
the config. -/
theorem C7_missing_root
    (h limit : Nat) (files : List FileRead) (now : Int) :
    (calculate h limit false files now).total_tokens = 0
    ∧ (calculate h limit false files now).percentage = 0
    ∧ (calculate h limit false files now).oldest_message_time = none
    ∧ (calculate h limit false files now).remaining_time = none
    ∧ (calculate h limit false files now).token_limit = limit := by
  refine ⟨rfl, rfl, rfl, rfl, rfl⟩

lemma scanFiles_skip_unreadable (ws : Int) (fs1 fs2 : List FileRead) :
    scanFiles ws (fs1 ++ FileRead.unreadable :: fs2) =
      scanFiles ws (fs1 ++ fs2) := by
  simp only [scanFiles, List.foldl_append, List.foldl_cons]
  rfl

/-- C6. Per-line parsing skips — without raising and without contributing
tokens — blank lines, lines failing JSON decoding, records without a
`message.usage` object, and records with a missing or unparsable
timestamp; a fragment whose read fails is skipped without aborting the
aggregation of the remaining fragments; and a fragment with one valid
in-window 100-token record interleaved with two malformed lines yields
`total_tokens = 100`. -/
theorem C6_malformed_lines_skipped :
    (∀ (ws : Int) (rest : List LineParse),
      parseJsonlFile (LineParse.blank :: rest) ws = parseJsonlFile rest ws)
    ∧ (∀ (ws : Int) (rest : List LineParse),
        parseJsonlFile (LineParse.badJson :: rest) ws = parseJsonlFile rest ws)
    ∧ (∀ (ws : Int) (ts : TimestampField) (rest : List LineParse),
        parseJsonlFile (LineParse.entry none ts :: rest) ws =
          parseJsonlFile rest ws)
    ∧ (∀ (ws : Int) (u : Usage) (rest : List LineParse),
        parseJsonlFile (LineParse.entry (some u) TimestampField.missing :: rest)
          ws = parseJsonlFile rest ws)
    ∧ (∀ (ws : Int) (u : Usage) (rest : List LineParse),
        parseJsonlFile
          (LineParse.entry (some u) TimestampField.unparsable :: rest) ws =
          parseJsonlFile rest ws)
    ∧ (∀ (h limit : Nat) (fs1 fs2 : List FileRead) (now : Int),
        calculate h limit true (fs1 ++ FileRead.unreadable :: fs2) now =
          calculate h limit true (fs1 ++ fs2) now)
    ∧ (calculate 5 1000000 true
        [FileRead.readable
          [LineParse.badJson,
           LineParse.entry (some ⟨100, 0, 0, 0⟩) (TimestampField.parsed 0),
           LineParse.entry (some ⟨50, 0, 0, 0⟩) TimestampField.missing]]
        0).total_tokens = 100 := by
  refine ⟨fun _ _ => rfl, fun _ _ => rfl, fun _ _ _ => rfl, fun _ _ _ => rfl,
    fun _ _ _ => rfl, ?_, ?_⟩
  · intro h limit fs1 fs2 now
    simp only [calculate, scanFiles_skip_unreadable]
  · norm_num [calculate, scanFiles, fileStep, parseJsonlFile, parseLine,
      mergeOldest, Usage.total]

/-! ## Notifier (notifier.py) -/

/-- The `last_notification` dict: alert type → last recorded send time
(in minutes). -/
abbrev NotifierState := List (String × Int)

/-- `self.last_notification[k]` lookup / `k in self.last_notification`. -/
def lookupLast (st : NotifierState) (k : String) : Option Int :=
  (st.find? (fun kv => kv.1 == k)).map (·.2)

/-- `self.last_notification[k] = t` (dict assignment). -/
def insertLast (st : NotifierState) (k : String) (t : Int) : NotifierState :=
  (k, t) :: st.filter (fun kv => kv.1 != k)

/-- Result of one `Notifier.notify` call: the boolean return value, the
updated `last_notification` dict, and whether the background send path
logged a delivery error. -/
structure NotifyResult where
  sent : Bool
  state : NotifierState
  errorLogged : Bool
deriving DecidableEq, Repr

/-- `Notifier.notify` (notifier.py lines 38-93). `toastAvailable` models
`self.toaster` being non-`None`; `deliveryError` models the outcome of
the background `show_toast` call (`some e` = it raises, and the `except`
inside `send` catches and logs it); `now` is `datetime.now()` in minutes.
The send time is recorded before the background send is dispatched, and
the call returns `True` at that point regardless of the send's outcome. -/
def notify (toastAvailable : Bool) (cooldown : Int) (st : NotifierState)
    (now : Int) (ntype : String) (force : Bool)
    (deliveryError : Option String) : NotifyResult :=
  if !toastAvailable then
    { sent := false, state := st, errorLogged := false }
  else
    match (if force then none else lookupLast st ntype) with
    | some last_time =>
      if now - last_time < cooldown then
        { sent := false, state := st, errorLogged := false }
      else
        { sent := true
          state := insertLast st ntype now
          errorLogged := deliveryError.isSome }
    | none =>
      { sent := true
        state := insertLast st ntype now
        errorLogged := deliveryError.isSome }

/-- `Notifier.reset_cooldown` (notifier.py lines 161-172): pop one type,
or clear the whole dict when called with `None`. -/
def reset_cooldown (st : NotifierState) (ntype : Option String) :
    NotifierState :=
  match ntype with
  | some k => st.filter (fun kv => kv.1 != k)
  | none => []

/-! ## Alert state machine (tray_app.py `_check_and_notify`) -/

inductive Alert where
  | warning
  | critical
deriving DecidableEq, Repr

/-- The mutable state read and written by `_check_and_notify`:
`self._last_warning_level` (0 normal, 1 warning, 2 critical) and the
notifier's `last_notification` dict. -/
structure TrayState where
  level : Nat
  ns : NotifierState
deriving DecidableEq, Repr

/-- `TrayApp._check_and_notify` (tray_app.py lines 119-141), for one
evaluation at time `now` with current percentage `p` and warning
threshold `thr` (`self.config.warning_threshold`). Returns the new state,
the alert emitted (i.e. which `notify_*` call was made, if any) and
whether that call reported delivery (`notify`'s boolean return). -/
def trayStep (thr : ℚ) (cooldown : Int) (toastAvail : Bool) (s : TrayState)
    (now : Int) (p : ℚ) (deliveryError : Option String) :
    TrayState × Option Alert × Bool :=
  if p ≥ 95 then
    if s.level < 2 then
      let r := notify toastAvail cooldown s.ns now "usage_critical" false
        deliveryError
      ({ level := 2, ns := r.state }, some .critical, r.sent)
    else (s, none, false)
  else if p ≥ thr then
    if s.level < 1 then
      let r := notify toastAvail cooldown s.ns now "usage_warning" false
        deliveryError
      ({ level := 1, ns := r.state }, some .warning, r.sent)
    else (s, none, false)
  else
    if s.level > 0 then
      ({ level := 0, ns := reset_cooldown s.ns none }, none, false)
    else (s, none, false)

/-- A sequence of `_check_and_notify` evaluations at given
(time, percentage) points, collecting the emitted alerts in order. -/
def trayRun (thr : ℚ) (cooldown : Int) (toastAvail : Bool) :
    TrayState → List (Int × ℚ) → TrayState × List (Option Alert)
  | s, [] => (s, [])
  | s, (t, p) :: rest =>
    let r := trayStep thr cooldown toastAvail s t p none
    let rr := trayRun thr cooldown toastAvail r.1 rest
    (rr.1, r.2.1 :: rr.2)

/-- C2. On each evaluation of `_check_and_notify`, a Critical alert is
emitted iff `percentage >= 95` and the current level is below Critical
(2), a Warning alert iff `percentage >= warning_threshold`,
`percentage < 95` and the current level is below Warning (1), and
otherwise no alert is emitted; for the percentage sequence
`[80, 92, 93, 96, 94]` with `warning_threshold = 90` the alerts fire
exactly at index 1 (Warning) and index 3 (Critical). -/
theorem C2_alert_level_crossings :
    (∀ (thr : ℚ) (cd : Int) (avail : Bool) (s : TrayState) (now : Int)
        (p : ℚ) (e : Option String),
      ((trayStep thr cd avail s now p e).2.1 = some Alert.critical ↔
        95 ≤ p ∧ s.level < 2)
      ∧ ((trayStep thr cd avail s now p e).2.1 = some Alert.warning ↔
          thr ≤ p ∧ p < 95 ∧ s.level < 1)
      ∧ ((trayStep thr cd avail s now p e).2.1 = none ↔
          ¬(95 ≤ p ∧ s.level < 2) ∧ ¬(thr ≤ p ∧ p < 95 ∧ s.level < 1)))
    ∧ (trayRun 90 15 true ⟨0, []⟩
        [(0, 80), (1, 92), (2, 93), (3, 96), (4, 94)]).2 =
      [none, some Alert.warning, none, some Alert.critical, none] := by
  constructor
  · intro thr cd avail s now p e
    by_cases h95 : 95 ≤ p
    · by_cases hl2 : s.level < 2
      · have hval : (trayStep thr cd avail s now p e).2.1 =
            some Alert.critical := by
          rw [trayStep, if_pos h95, if_pos hl2]
        rw [hval]
        refine ⟨iff_of_true rfl ⟨h95, hl2⟩, iff_of_false (by simp) ?_,
          iff_of_false (by simp) ?_⟩
        · rintro ⟨-, hlt, -⟩; linarith
        · rintro ⟨hn, -⟩; exact hn ⟨h95, hl2⟩
      · have hval : (trayStep thr cd avail s now p e).2.1 = none := by
          rw [trayStep, if_pos h95, if_neg hl2]
        rw [hval]
        refine ⟨iff_of_false (by simp) ?_, iff_of_false (by simp) ?_,
          iff_of_true rfl ⟨?_, ?_⟩⟩
        · rintro ⟨-, c⟩; exact hl2 c
        · rintro ⟨-, hlt, -⟩; linarith
        · rintro ⟨-, c⟩; exact hl2 c
        · rintro ⟨-, hlt, -⟩; linarith
    · by_cases hthr : thr ≤ p
      · by_cases hl1 : s.level < 1
        · have hval : (trayStep thr cd avail s now p e).2.1 =
              some Alert.warning := by
            rw [trayStep, if_neg h95, if_pos hthr, if_pos hl1]
          rw [hval]
          refine ⟨iff_of_false (by simp) ?_,
            iff_of_true rfl ⟨hthr, not_le.mp h95, hl1⟩,
            iff_of_false (by simp) ?_⟩
          · rintro ⟨c, -⟩; exact h95 c
          · rintro ⟨-, hn⟩; exact hn ⟨hthr, not_le.mp h95, hl1⟩
        · have hval : (trayStep thr cd avail s now p e).2.1 = none := by
            rw [trayStep, if_neg h95, if_pos hthr, if_neg hl1]
          rw [hval]
          refine ⟨iff_of_false (by simp) ?_, iff_of_false (by simp) ?_,
            iff_of_true rfl ⟨?_, ?_⟩⟩
          · rintro ⟨c, -⟩; exact h95 c
          · rintro ⟨-, -, c⟩; exact hl1 c
          · rintro ⟨c, -⟩; exact h95 c
          · rintro ⟨-, -, c⟩; exact hl1 c
      · have hval : (trayStep thr cd avail s now p e).2.1 = none := by
          rw [trayStep, if_neg h95, if_neg hthr]
          split <;> rfl
        rw [hval]
        refine ⟨iff_of_false (by simp) ?_, iff_of_false (by simp) ?_,
          iff_of_true rfl ⟨?_, ?_⟩⟩
        · rintro ⟨c, -⟩; exact h95 c
        · rintro ⟨c, -, -⟩; exact hthr c
        · rintro ⟨c, -⟩; exact h95 c
        · rintro ⟨c, -, -⟩; exact hthr c
  · decide

/-- C2 witness: from Normal, a percentage of 96 emits a Critical alert. -/
theorem C2_alert_level_crossings_witness :
    (trayStep 90 15 true ⟨0, []⟩ 0 96 none).2.1 = some Alert.critical :=
  ((C2_alert_level_crossings.1 90 15 true ⟨0, []⟩ 0 96 none).1).mpr
    (by norm_num)

/-- C3. Dropping from a non-Normal level back to Normal clears all
per-alert-type cooldown timestamps; consequently a Warning crossing after
an intervening drop to Normal is delivered immediately (here at t = 5 min
after a delivery at t = 0 with a 15-minute cooldown), whereas a repeated
non-forced `notify` of the same type with no intervening reset is
suppressed — not delivered, state unchanged — until the cooldown has
elapsed since the last delivery of that type (suppressed at t = 5,
delivered again at t = 15). -/
theorem C3_cooldown_cleared_on_recovery :
    (∀ (thr : ℚ) (cd : Int) (avail : Bool) (s : TrayState) (now : Int)
        (p : ℚ) (e : Option String),
      p < thr → p < 95 → 0 < s.level →
        (trayStep thr cd avail s now p e).1.ns = [])
    ∧ ((trayStep 90 15 true ⟨0, []⟩ 0 92 none).2 =
        (some Alert.warning, true)
      ∧ (trayStep 90 15 true ⟨0, []⟩ 0 92 none).1 =
        ⟨1, [("usage_warning", 0)]⟩
      ∧ (trayStep 90 15 true ⟨1, [("usage_warning", 0)]⟩ 2 50 none).1 =
        ⟨0, []⟩
      ∧ (trayStep 90 15 true ⟨0, []⟩ 5 92 none).2 =
        (some Alert.warning, true))
    ∧ ((notify true 15 [("usage_warning", 0)] 5 "usage_warning" false
          none).sent = false
      ∧ (notify true 15 [("usage_warning", 0)] 5 "usage_warning" false
          none).state = [("usage_warning", 0)]
      ∧ (notify true 15 [("usage_warning", 0)] 15 "usage_warning" false
          none).sent = true) := by
  refine ⟨?_, by decide, by decide⟩
  intro thr cd avail s now p e hthr h95 hlvl
  rw [trayStep, if_neg (not_le.mpr h95), if_neg (not_le.mpr hthr),
    if_pos hlvl]
  rfl

/-- C3 witness: a drop from Warning (level 1) to 50% clears the pending
`usage_warning` cooldown timestamp. -/
theorem C3_cooldown_cleared_on_recovery_witness :
    (trayStep 90 15 true ⟨1, [("usage_warning", 0)]⟩ 2 50 none).1.ns = [] :=
  C3_cooldown_cleared_on_recovery.1 90 15 true ⟨1, [("usage_warning", 0)]⟩
    2 50 none (by norm_num) (by norm_num) (by norm_num)

/-- C9 counterexample. With the delivery channel available and no cooldown
pending, a `notify` call whose background `show_toast` raises (delivery
failure, caught and logged) still returns `True`: the failure of the
delivery itself is NOT reported to the caller via the boolean return
value. -/
theorem C9_delivery_failure_not_in_return :
    (notify true 15 [] 0 "usage_warning" false (some "boom")).sent = true
    ∧ (notify true 15 [] 0 "usage_warning" false
        (some "boom")).errorLogged = true := by
  decide

/-- C9 amended. A `notify` call never propagates a delivery exception to
the caller: its boolean result and the cooldown bookkeeping are identical
whether or not the asynchronous `show_toast` raises, and a delivery
failure surfaces only as a logged error (exactly when the send was
dispatched); unavailability of the delivery channel is reported via a
`False` return. -/
theorem C9_notify_never_throws :
    (∀ (cd : Int) (st : NotifierState) (now : Int) (k : String) (f : Bool)
        (e : Option String),
      (notify false cd st now k f e).sent = false)
    ∧ (∀ (avail : Bool) (cd : Int) (st : NotifierState) (now : Int)
        (k : String) (f : Bool) (e : Option String),
      (notify avail cd st now k f e).sent =
        (notify avail cd st now k f none).sent
      ∧ (notify avail cd st now k f e).state =
        (notify avail cd st now k f none).state
      ∧ (notify avail cd st now k f e).errorLogged =
        ((notify avail cd st now k f e).sent && e.isSome)) := by
  refine ⟨fun cd st now k f e => rfl, ?_⟩
  intro avail cd st now k f e
  cases avail with
  | false => exact ⟨rfl, rfl, rfl⟩
  | true =>
    simp only [notify, Bool.not_true, Bool.false_eq_true, if_false]
    rcases hl : (if f then none else lookupLast st k) with _ | last
    · exact ⟨rfl, rfl, rfl⟩
    · by_cases hc : now - last < cd
      · simp only [if_pos hc]
        exact ⟨trivial, trivial, rfl⟩
      · simp only [if_neg hc]
        exact ⟨trivial, trivial, rfl⟩

/-! ## Change detector (file_watcher.py) -/

/-- A filesystem event as seen by `JSONLEventHandler`: its directory flag
and source path. -/
structure FsEvent where
  is_directory : Bool
  src_path : String
deriving DecidableEq, Repr

/-- The qualifying test shared by `on_modified` and `on_created`
(file_watcher.py lines 34-42): not a directory and the path ends in
`.jsonl` — `endswith` is modelled as a suffix test on the path's
character sequence. -/
def qualifies (e : FsEvent) : Bool :=
  !e.is_directory && ".jsonl".data.isSuffixOf e.src_path.data

/-- `_schedule_callback` (file_watcher.py lines 44-54): cancel the pending
timer, if any, and start a new one for `debounce_seconds` from now. The
single timer slot `self._timer` is modelled by its scheduled fire
instant (times in milliseconds); the previous slot content is discarded. -/
def scheduleCallback (delay : Int) (pending : Option Int) (now : Int) :
    Option Int :=
  match pending with
  | some _ => some (now + delay)
  | none => some (now + delay)

/-- The handler's reaction to one event (file_watcher.py lines 34-42):
`_schedule_callback` on a qualifying event, nothing otherwise. -/
def handleEvent (delay : Int) (pending : Option Int) (e : FsEvent)
    (now : Int) : Option Int :=
  if qualifies e then scheduleCallback delay pending now else pending

/-- Fire instants of the single-slot cancellable timer over a
strictly-increasing sequence of qualifying event times: the timer set at
`t` fires at `t + delay` unless the next event arrives strictly before
that instant, in which case it is cancelled and replaced. -/
def debounceFires (delay : Int) : List Int → List Int
  | [] => []
  | [t] => [t + delay]
  | t :: t' :: rest =>
    if t + delay ≤ t' then (t + delay) :: debounceFires delay (t' :: rest)
    else debounceFires delay (t' :: rest)

/-- C8. At most one debounce timer is ever pending: every qualifying
event (creation or modification of a non-directory `.jsonl` path)
replaces the pending timer with one set `delay` from now, a
non-qualifying event changes nothing, and a burst of qualifying events
each arriving strictly less than `delay` after the previous one makes
the trigger callback fire exactly once, `delay` after the last event. -/
theorem C8_debounce_single_timer :
    (∀ (delay : Int) (pending : Option Int) (e : FsEvent) (now : Int),
      qualifies e = true →
        handleEvent delay pending e now = some (now + delay))
    ∧ (∀ (delay : Int) (pending : Option Int) (e : FsEvent) (now : Int),
        qualifies e = false → handleEvent delay pending e now = pending)
    ∧ (∀ (delay t : Int) (ts : List Int),
        List.Chain' (fun a b => b < a + delay) (t :: ts) →
          debounceFires delay (t :: ts) =
            [(t :: ts).getLast (List.cons_ne_nil t ts) + delay])
    ∧ qualifies ⟨false, "proj/session.jsonl"⟩ = true
    ∧ qualifies ⟨true, "proj/session.jsonl"⟩ = false
    ∧ qualifies ⟨false, "proj/notes.txt"⟩ = false := by
  refine ⟨?_, ?_, ?_, by decide, by decide, by decide⟩
  · intro delay pending e now hq
    rw [handleEvent, if_pos hq]
    cases pending <;> rfl
  · intro delay pending e now hq
    rw [handleEvent, if_neg (by simp [hq])]
  · intro delay t ts
    induction ts generalizing t with
    | nil => intro _; rfl
    | cons t' rest ih =>
      intro hch
      rw [List.chain'_cons] at hch
      obtain ⟨hlt, hch'⟩ := hch
      have hstep : debounceFires delay (t :: t' :: rest) =
          debounceFires delay (t' :: rest) := by
        rw [debounceFires, if_neg (by omega)]
      rw [hstep, ih t' hch', List.getLast_cons (List.cons_ne_nil t' rest)]

/-- C8 witness: ten qualifying events 100 ms apart with a 500 ms debounce
delay fire the callback exactly once, 500 ms after the last event. -/
theorem C8_debounce_single_timer_witness :
    debounceFires 500
        [0, 100, 200, 300, 400, 500, 600, 700, 800, 900] = [1400] :=
  C8_debounce_single_timer.2.2.1 500 0
    [100, 200, 300, 400, 500, 600, 700, 800, 900]
    (by norm_num [List.chain'_cons])

end Monitor
